import Mathlib

/-!
Verification development for the LINE chatbot webhook relay (src/main.py).

The Python source is shallowly embedded: pure helpers become Lean functions,
the module-level mutable caches (dedup cache, throttle map) become explicit
state threaded through the functions, timestamps (Python `time.time()` floats)
become `Int` seconds, and the external HTTP / SQLite / LLM effects are
modelled by explicit parameters (success oracles, association-list stores).
Each definition cites the source lines it embeds.
-/

namespace LineBot

/-- JSON values as produced by Python's `json.loads` (stdlib, external to the
repository): objects are association lists in insertion order with duplicate
keys collapsed (last value wins, as for Python dicts); numbers are modelled as
a decimal mantissa with a power-of-ten scale (value = mantissa / 10^scale),
which identifies the numeric values the claims touch; `NaN`/`Infinity`
extensions and surrogate-pair recombination are outside the modelled subset
(no claim exercises them). -/
inductive Json where
  | null : Json
  | bool : Bool → Json
  | num : Int → Nat → Json
  | str : String → Json
  | arr : List Json → Json
  | obj : List (String × Json) → Json

/-- Field list of a JSON object / Python dict. -/
abbrev Fields := List (String × Json)

/-- Python dict lookup `d.get(k)` / `d[k]`. Keys in parsed objects are unique
(`setField` collapses duplicates), so first-match lookup agrees with the dict. -/
def lookupField : Fields → String → Option Json
  | [], _ => none
  | (k, v) :: rest, key => if k == key then some v else lookupField rest key

/-- Python `k in d` membership test. -/
def hasField (fs : Fields) (k : String) : Bool := (lookupField fs k).isSome

/-- Python dict insertion `d[k] = v`: overwrites in place when the key exists
(keeping its position, as Python dicts do), else appends. -/
def setField : Fields → String → Json → Fields
  | [], k, v => [(k, v)]
  | (k', v') :: rest, k, v =>
    if k' == k then (k, v) :: rest else (k', v') :: setField rest k v

/-- Whitespace skipped by the JSON grammar (space, tab, newline, carriage return). -/
def isJsonWs (c : Char) : Bool := c == ' ' || c == '\t' || c == '\n' || c == '\r'

/-- Drop leading JSON whitespace. -/
def skipWs : List Char → List Char
  | [] => []
  | c :: cs => if isJsonWs c then skipWs cs else c :: cs

/-- Value of a hex digit, if the character is one. -/
def hexVal (c : Char) : Option Nat :=
  if '0' ≤ c && c ≤ '9' then some (c.toNat - 48)
  else if 'a' ≤ c && c ≤ 'f' then some (c.toNat - 87)
  else if 'A' ≤ c && c ≤ 'F' then some (c.toNat - 55)
  else none

/-- Body of a JSON string literal after the opening quote: returns the decoded
characters and the remaining input past the closing quote. Escapes follow the
JSON grammar; `\uXXXX` is decoded as a single scalar value. Raw control
characters are rejected, as `json.loads` does in strict mode. -/
def parseStrChars : Nat → List Char → Option (List Char × List Char)
  | 0, _ => none
  | _ + 1, [] => none
  | fuel + 1, c :: cs =>
    if c == '"' then some ([], cs)
    else if c == '\\' then
      match cs with
      | [] => none
      | e :: cs2 =>
        let dec : Option (Char × List Char) :=
          if e == '"' then some ('"', cs2)
          else if e == '\\' then some ('\\', cs2)
          else if e == '/' then some ('/', cs2)
          else if e == 'b' then some ('\x08', cs2)
          else if e == 'f' then some ('\x0c', cs2)
          else if e == 'n' then some ('\n', cs2)
          else if e == 'r' then some ('\r', cs2)
          else if e == 't' then some ('\t', cs2)
          else if e == 'u' then
            match cs2 with
            | h1 :: h2 :: h3 :: h4 :: cs3 =>
              match hexVal h1, hexVal h2, hexVal h3, hexVal h4 with
              | some a, some b, some c2, some d =>
                some (Char.ofNat (((a * 16 + b) * 16 + c2) * 16 + d), cs3)
              | _, _, _, _ => none
            | _ => none
          else none
        match dec with
        | some (ch, rest) => (parseStrChars fuel rest).map (fun p => (ch :: p.1, p.2))
        | none => none
    else if c.toNat < 32 then none
    else (parseStrChars fuel cs).map (fun p => (c :: p.1, p.2))

/-- Split a leading run of decimal digits from the input. -/
def takeDigits (cs : List Char) : List Char × List Char :=
  (cs.takeWhile (fun c => c.isDigit), cs.dropWhile (fun c => c.isDigit))

/-- Decimal digits to a natural number. -/
def digitsToNat (ds : List Char) : Nat :=
  ds.foldl (fun acc c => acc * 10 + (c.toNat - 48)) 0

/-- JSON number literal per the grammar
`-? (0 | [1-9][0-9]*) (\.[0-9]+)? ([eE][+-]?[0-9]+)?` (leading zeros rejected,
as `json.loads` does). The result is a `Json.num` mantissa/scale pair. -/
def parseNum (cs : List Char) : Option (Json × List Char) :=
  let signSplit : Bool × List Char :=
    match cs with
    | '-' :: rest => (true, rest)
    | _ => (false, cs)
  let neg := signSplit.1
  match takeDigits signSplit.2 with
  | ([], _) => none
  | (d :: ds, rest1) =>
    if d == '0' && !ds.isEmpty then none
    else
      let fracStep : Option (List Char × List Char) :=
        match rest1 with
        | '.' :: r =>
          match takeDigits r with
          | ([], _) => none
          | (fd, r2) => some (fd, r2)
        | _ => some ([], rest1)
      match fracStep with
      | none => none
      | some (fd, rest2) =>
        let expStep : Option (Int × List Char) :=
          match rest2 with
          | e :: r =>
            if e == 'e' || e == 'E' then
              let esign : Bool × List Char :=
                match r with
                | '+' :: rr => (false, rr)
                | '-' :: rr => (true, rr)
                | _ => (false, r)
              match takeDigits esign.2 with
              | ([], _) => none
              | (ed, r3) =>
                let ev : Int := Int.ofNat (digitsToNat ed)
                some (if esign.1 then -ev else ev, r3)
            else some (0, rest2)
          | [] => some (0, rest2)
        match expStep with
        | none => none
        | some (ex, rest3) =>
          let mant0 : Int := Int.ofNat (digitsToNat (d :: ds) * 10 ^ fd.length + digitsToNat fd)
          let mant : Int := if neg then -mant0 else mant0
          let scale : Int := Int.ofNat fd.length - ex
          if scale ≤ 0 then some (.num (mant * 10 ^ (-scale).toNat) 0, rest3)
          else some (.num mant scale.toNat, rest3)

/-- Parser mode: a plain value, or the tail of an array / object after its
opening bracket and first element boundary. -/
inductive PMode where
  | value : PMode
  | arrRest : List Json → PMode
  | objRest : Fields → PMode

/-- Recursive JSON parser (fuel-indexed), covering the value grammar of
`json.loads`. In `value` mode it dispatches on the first non-space character;
`arrRest`/`objRest` consume comma-separated members up to the closing bracket. -/
def parseJ : Nat → PMode → List Char → Option (Json × List Char)
  | 0, _, _ => none
  | fuel + 1, .value, cs =>
    match skipWs cs with
    | [] => none
    | c :: cs1 =>
      if c == 'n' then
        match cs1 with
        | 'u' :: 'l' :: 'l' :: r => some (.null, r)
        | _ => none
      else if c == 't' then
        match cs1 with
        | 'r' :: 'u' :: 'e' :: r => some (.bool true, r)
        | _ => none
      else if c == 'f' then
        match cs1 with
        | 'a' :: 'l' :: 's' :: 'e' :: r => some (.bool false, r)
        | _ => none
      else if c == '"' then
        (parseStrChars (cs1.length + 1) cs1).map (fun p => (.str (String.mk p.1), p.2))
      else if c == '[' then
        match skipWs cs1 with
        | ']' :: r => some (.arr [], r)
        | cs2 => parseJ fuel (.arrRest []) cs2
      else if c == '\x7b' then
        match skipWs cs1 with
        | '\x7d' :: r => some (.obj [], r)
        | cs2 => parseJ fuel (.objRest []) cs2
      else parseNum (c :: cs1)
  | fuel + 1, .arrRest acc, cs =>
    match parseJ fuel .value cs with
    | none => none
    | some (v, r1) =>
      match skipWs r1 with
      | ',' :: r2 => parseJ fuel (.arrRest (acc ++ [v])) r2
      | ']' :: r2 => some (.arr (acc ++ [v]), r2)
      | _ => none
  | fuel + 1, .objRest acc, cs =>
    match skipWs cs with
    | '"' :: r =>
      match parseStrChars (r.length + 1) r with
      | none => none
      | some (kchars, r1) =>
        match skipWs r1 with
        | ':' :: r2 =>
          match parseJ fuel .value r2 with
          | none => none
          | some (v, r3) =>
            let acc2 := setField acc (String.mk kchars) v
            match skipWs r3 with
            | ',' :: r4 => parseJ fuel (.objRest acc2) r4
            | '\x7d' :: r4 => some (.obj acc2, r4)
            | _ => none
        | _ => none
    | _ => none

/-- Model of `json.loads` on a whole string: one JSON value, with nothing but
whitespace allowed after it ("Extra data" is rejected, as `json.loads` does). -/
def jsonLoads (s : String) : Option Json :=
  match parseJ (2 * s.data.length + 8) .value s.data with
  | some (j, rest) => if (skipWs rest).isEmpty then some j else none
  | none => none

/-- Characters matched by the regex class `\s` (the ASCII whitespace set;
the claims exercise only ASCII whitespace). -/
def isPyWs (c : Char) : Bool :=
  c == ' ' || c == '\t' || c == '\n' || c == '\r' || c == '\x0b' || c == '\x0c'

/-- Length of the leading `\s` run. -/
def wsRunLen (cs : List Char) : Nat := (cs.takeWhile isPyWs).length

/-- Literal match of a pattern at the head of the input. -/
def startsWithChars : List Char → List Char → Bool
  | [], _ => true
  | _ :: _, [] => false
  | p :: ps, c :: cs => p == c && startsWithChars ps cs

/-- Three backticks, the code-fence delimiter of the regex at src/main.py:721. -/
def ticks : List Char := ['\x60', '\x60', '\x60']

/-- Tail of the fence regex after the first `\n`: the lazy group `(.*?)`
(shortest first, `.` matching newlines under `re.DOTALL`) followed by
`\n\s*` and the closing triple backtick. Returns the group's characters. -/
def fenceTail (g : List Char) : Option (List Char) :=
  (List.range (g.length + 1)).findSome? (fun e =>
    match g.drop e with
    | '\n' :: tl =>
      if (List.range (wsRunLen tl + 1)).any (fun k => startsWithChars ticks (tl.drop k))
      then some (g.take e) else none
    | _ => none)

/-- Match of the fence regex body after the opening triple backtick: the
optional greedy `(?:json)?`, then greedy `\s*` followed by `\n` (largest
whitespace prefix first, backtracking down), then `fenceTail`. -/
def fenceAfterTicks (r : List Char) : Option (List Char) :=
  let cands : List (List Char) :=
    if startsWithChars "json".data r then [r.drop 4, r] else [r]
  cands.findSome? (fun r1 =>
    ((List.range (wsRunLen r1 + 1)).reverse).findSome? (fun k =>
      match r1.drop k with
      | '\n' :: g => fenceTail g
      | _ => none))

/-- Model of `re.search(r'```(?:json)?\s*\n(.*?)\n\s*```', text, re.DOTALL)`
(src/main.py:721): leftmost start position wins, and within one start position
alternatives are tried in the regex's backtracking order. Returns group 1. -/
def fenceSearch (cs : List Char) : Option (List Char) :=
  (List.range (cs.length + 1)).findSome? (fun i =>
    if startsWithChars ticks (cs.drop i)
    then fenceAfterTicks ((cs.drop i).drop 3) else none)

/-- Python `str.strip()` restricted to the ASCII whitespace set. -/
def stripChars (cs : List Char) : List Char :=
  ((cs.dropWhile isPyWs).reverse.dropWhile isPyWs).reverse

/-- Python `str.strip()` on strings. -/
def stripStr (s : String) : String := String.mk (stripChars s.data)

/-- Python `text.find('\x7b')` as an optional index. -/
def firstBraceIdx : List Char → Option Nat
  | [] => none
  | c :: cs =>
    if c == '\x7b' then some 0 else (firstBraceIdx cs).map (fun i => i + 1)

/-- Shared unwrapping rule of `_try_parse_message_obj` (src/main.py:727-736 and
749-758): a parsed dict with a dict-valued `message` field yields that nested
dict; otherwise a dict with a `type` field is returned directly; anything else
is rejected. -/
def unwrapMsgObj (j : Json) : Option Fields :=
  match j with
  | .obj fields =>
    match lookupField fields "message" with
    | some (.obj inner) => some inner
    | _ => if hasField fields "type" then some fields else none
  | _ => none

/-- Fence stage of `_try_parse_message_obj` (src/main.py:721-738): parse the
stripped contents of the first fenced block as JSON and apply the unwrapping
rule; `none` when there is no fence, the block fails to parse, or the
unwrapping returns nothing. -/
def fenceParseResult (text : String) : Option Fields :=
  match fenceSearch text.data with
  | some g =>
    match jsonLoads (String.mk (stripChars g)) with
    | some j => unwrapMsgObj j
    | none => none
  | none => none

/-- Bare-brace stage of `_try_parse_message_obj` (src/main.py:741-760): parse
from the first `\x7b` to the end of the string and apply the unwrapping rule. -/
def braceParseResult (text : String) : Option Fields :=
  match firstBraceIdx text.data with
  | some i =>
    match jsonLoads (String.mk (text.data.drop i)) with
    | some j => unwrapMsgObj j
    | none => none
  | none => none

/-- Model of `_try_parse_message_obj` (src/main.py:704-764): the fence stage if
it returned something, else the bare-brace stage, else `None`. -/
def tryParseMessageObj (text : String) : Option Fields :=
  match fenceParseResult text with
  | some m => some m
  | none => braceParseResult text

/-- Dedup TTL, `DEDUP_TTL_SECONDS = 300` (src/main.py:170). -/
def DEDUP_TTL_SECONDS : Int := 300

/-- Throttle window, `RUNNING_TTL_SECONDS = 12` (src/main.py:281). -/
def RUNNING_TTL_SECONDS : Int := 12

/-- A keyed timestamp store: the SQLite `dedup` table, the in-memory
`DEDUP_CACHE`, and the `RUNNING_USERS` map are all key-to-timestamp maps.
Keys are kept unique by the operations below. -/
abbrev TsStore (κ : Type) := List (κ × Int)

/-- Lookup of a key's timestamp (dict access / `SELECT ts WHERE key=?`). -/
def lookupTs {κ : Type} [BEq κ] : TsStore κ → κ → Option Int
  | [], _ => none
  | (k', t) :: rest, k => if k' == k then some t else lookupTs rest k

/-- Store a key's timestamp (dict assignment / `REPLACE INTO`): overwrite in
place when present, else append. -/
def setTs {κ : Type} [BEq κ] : TsStore κ → κ → Int → TsStore κ
  | [], k, t => [(k, t)]
  | (k', t') :: rest, k, t =>
    if k' == k then (k, t) :: rest else (k', t') :: setTs rest k t

/-- Purge step of `_dedup_seen_db` (src/main.py:365-366):
`DELETE FROM dedup WHERE ts < now - DEDUP_TTL_SECONDS`. -/
def purgeDedupDb (now : Int) (st : TsStore String) : TsStore String :=
  st.filter (fun kv => !(decide (kv.2 < now - DEDUP_TTL_SECONDS)))

/-- Model of `_dedup_seen_db` (src/main.py:345-390), collapsing the several
`time.time()` reads of one call into a single instant `now` and the SQLite
table into an association list. Purge expired rows; a fresh key is inserted
and reported new (`INSERT` succeeds, return `False`); an existing key within
the TTL is a duplicate (return `True`); an existing expired key has its
timestamp refreshed (`REPLACE`) and is reported new. The `row is None` re-read
branch (line 376-379) is unreachable in this single-call model and yields the
same insert-and-return-`False` result as the fresh-key branch. -/
def dedupSeenDb (now : Int) (st : TsStore String) (key : String) :
    Bool × TsStore String :=
  match lookupTs (purgeDedupDb now st) key with
  | none => (false, setTs (purgeDedupDb now st) key now)
  | some ts =>
    if now - ts ≤ DEDUP_TTL_SECONDS then (true, purgeDedupDb now st)
    else (false, setTs (purgeDedupDb now st) key now)

/-- Purge step of the in-memory `_dedup_seen` (src/main.py:330-335): drop
cache entries with `now - ts > DEDUP_TTL_SECONDS`. -/
def purgeDedupMem (now : Int) (st : TsStore String) : TsStore String :=
  st.filter (fun kv => !(decide (now - kv.2 > DEDUP_TTL_SECONDS)))

/-- Model of the in-memory fallback `_dedup_seen` (src/main.py:314-342):
purge expired cache entries; report a duplicate if the key is cached within
the TTL; otherwise record `now` and report new. -/
def dedupSeen (now : Int) (st : TsStore String) (key : String) :
    Bool × TsStore String :=
  match lookupTs (purgeDedupMem now st) key with
  | some ts =>
    if now - ts ≤ DEDUP_TTL_SECONDS then (true, purgeDedupMem now st)
    else (false, setTs (purgeDedupMem now st) key now)
  | none => (false, setTs (purgeDedupMem now st) key now)

/-- Purge step of `_user_throttled` (src/main.py:301-303): drop users whose
entry is older than the running window. -/
def purgeThrottle (now : Int) (st : TsStore (Option String)) :
    TsStore (Option String) :=
  st.filter (fun kv => !(decide (now - kv.2 > RUNNING_TTL_SECONDS)))

/-- Model of `_user_throttled` (src/main.py:285-311). The user id is an
`Option String` because the caller passes the Python value
`source.userId or DESTINATION_USER_ID`, which can be `None`. Purge expired
entries; a user with an unexpired entry is throttled (return `True`, entry
untouched); otherwise record `now` and admit (return `False`). -/
def userThrottled (now : Int) (st : TsStore (Option String)) (u : Option String) :
    Bool × TsStore (Option String) :=
  match lookupTs (purgeThrottle now st) u with
  | some ts =>
    if now - ts ≤ RUNNING_TTL_SECONDS then (true, purgeThrottle now st)
    else (false, setTs (purgeThrottle now st) u now)
  | none => (false, setTs (purgeThrottle now st) u now)

theorem lookupTs_setTs_self {κ : Type} [BEq κ] [LawfulBEq κ]
    (st : TsStore κ) (k : κ) (t : Int) : lookupTs (setTs st k t) k = some t := by
  induction st with
  | nil => simp [setTs, lookupTs]
  | cons kv rest ih =>
    obtain ⟨k', t'⟩ := kv
    by_cases h : (k' == k) = true
    · simp [setTs, lookupTs, h]
    · rw [Bool.not_eq_true] at h
      simp only [setTs, h, Bool.false_eq_true, if_false, lookupTs]
      exact ih

theorem setTs_of_lookupTs_none {κ : Type} [BEq κ]
    (st : TsStore κ) (k : κ) (t : Int) (h : lookupTs st k = none) :
    setTs st k t = st ++ [(k, t)] := by
  induction st with
  | nil => simp [setTs]
  | cons kv rest ih =>
    obtain ⟨k', t'⟩ := kv
    simp only [lookupTs] at h
    by_cases hk : (k' == k) = true
    · rw [if_pos hk] at h
      exact absurd h (by simp)
    · rw [Bool.not_eq_true] at hk
      rw [hk, if_neg (by simp)] at h
      simp only [setTs, hk, Bool.false_eq_true, if_false, List.cons_append,
        List.cons.injEq, true_and]
      exact ih h

theorem lookupTs_filter_none {κ : Type} [BEq κ]
    (st : TsStore κ) (k : κ) (p : κ × Int → Bool) (h : lookupTs st k = none) :
    lookupTs (st.filter p) k = none := by
  induction st with
  | nil => simp [lookupTs]
  | cons kv rest ih =>
    obtain ⟨k', t'⟩ := kv
    simp only [lookupTs] at h
    by_cases hk : (k' == k) = true
    · rw [if_pos hk] at h
      exact absurd h (by simp)
    · rw [Bool.not_eq_true] at hk
      rw [hk, if_neg (by simp)] at h
      have h' := ih h
      rw [List.filter_cons]
      by_cases hp : p (k', t') = true
      · rw [if_pos hp]
        simp only [lookupTs, hk]
        rw [if_neg (by simp)]
        exact h'
      · rw [if_neg hp]
        exact h'

theorem lookupTs_append_left_none {κ : Type} [BEq κ]
    (l1 l2 : TsStore κ) (k : κ) (h : lookupTs l1 k = none) :
    lookupTs (l1 ++ l2) k = lookupTs l2 k := by
  induction l1 with
  | nil => simp
  | cons kv rest ih =>
    obtain ⟨k', t'⟩ := kv
    simp only [lookupTs] at h
    by_cases hk : (k' == k) = true
    · rw [if_pos hk] at h
      exact absurd h (by simp)
    · rw [Bool.not_eq_true] at hk
      rw [hk, if_neg (by simp)] at h
      simp only [List.cons_append, lookupTs, hk]
      rw [if_neg (by simp)]
      exact ih h

theorem lookupTs_singleton_self {κ : Type} [BEq κ] [LawfulBEq κ] (k : κ) (t : Int) :
    lookupTs [(k, t)] k = some t := by
  simp [lookupTs]

theorem dedupSeenDb_fresh (now : Int) (st : TsStore String) (k : String)
    (hfresh : lookupTs (purgeDedupDb now st) k = none) :
    dedupSeenDb now st k = (false, purgeDedupDb now st ++ [(k, now)]) := by
  unfold dedupSeenDb
  rw [hfresh, setTs_of_lookupTs_none _ _ _ hfresh]

theorem dedupSeenDb_dup (now : Int) (st : TsStore String) (k : String) (ts : Int)
    (hl : lookupTs (purgeDedupDb now st) k = some ts)
    (h : now - ts ≤ DEDUP_TTL_SECONDS) :
    dedupSeenDb now st k = (true, purgeDedupDb now st) := by
  unfold dedupSeenDb
  rw [hl]
  exact if_pos h

theorem purgeDedupDb_append (now : Int) (l1 l2 : TsStore String) :
    purgeDedupDb now (l1 ++ l2) = purgeDedupDb now l1 ++ purgeDedupDb now l2 := by
  unfold purgeDedupDb
  exact List.filter_append l1 l2

/-- C1. Dedup check contract (src/main.py:345-390 `_dedup_seen_db`,
src/main.py:314-342 `_dedup_seen`): for a key `k` not in the (purged) store at
time `t1`, the first check reports "not a duplicate" and records `(k, t1)`;
a second check at `t2` within the 300-second TTL (`t2 - t1 ≤ 300`, time
monotone) reports a duplicate; a check at `t3` with more than 300 seconds
elapsed reports "not a duplicate" again and refreshes the stored timestamp to
`t3`; and the in-memory fallback `_dedup_seen` used on store failure computes
exactly the same function as the durable-store check. -/
theorem dedup_check_contract (st : TsStore String) (k : String) (t1 t2 t3 : Int)
    (hfresh : lookupTs (purgeDedupDb t1 st) k = none)
    (h2a : 0 ≤ t2 - t1) (h2b : t2 - t1 ≤ 300) (h3 : 300 < t3 - t1) :
    (dedupSeenDb t1 st k).1 = false
    ∧ lookupTs (dedupSeenDb t1 st k).2 k = some t1
    ∧ (dedupSeenDb t2 (dedupSeenDb t1 st k).2 k).1 = true
    ∧ (dedupSeenDb t3 (dedupSeenDb t1 st k).2 k).1 = false
    ∧ lookupTs (dedupSeenDb t3 (dedupSeenDb t1 st k).2 k).2 k = some t3
    ∧ dedupSeen = dedupSeenDb := by
  have hst1 : dedupSeenDb t1 st k = (false, purgeDedupDb t1 st ++ [(k, t1)]) :=
    dedupSeenDb_fresh t1 st k hfresh
  have hsnd : (dedupSeenDb t1 st k).2 = purgeDedupDb t1 st ++ [(k, t1)] := by
    rw [hst1]
  have hlook1 : lookupTs (purgeDedupDb t1 st ++ [(k, t1)]) k = some t1 := by
    rw [lookupTs_append_left_none _ _ _ hfresh]
    exact lookupTs_singleton_self k t1
  have hpurge_none : ∀ t : Int,
      lookupTs (purgeDedupDb t (purgeDedupDb t1 st)) k = none := fun t =>
    lookupTs_filter_none _ _ _ hfresh
  have hkeep2 : purgeDedupDb t2 [(k, t1)] = [(k, t1)] := by
    unfold purgeDedupDb DEDUP_TTL_SECONDS
    simp only [List.filter_cons, List.filter_nil]
    rw [if_pos (by simp only [Bool.not_eq_eq_eq_not, Bool.not_true,
      decide_eq_false_iff_not]; omega)]
  have hdrop3 : purgeDedupDb t3 [(k, t1)] = [] := by
    unfold purgeDedupDb DEDUP_TTL_SECONDS
    simp only [List.filter_cons, List.filter_nil]
    rw [if_neg (by simp only [Bool.not_eq_eq_eq_not, Bool.not_true,
      decide_eq_false_iff_not]; omega)]
  have hlook2 : lookupTs (purgeDedupDb t2 (purgeDedupDb t1 st ++ [(k, t1)])) k
      = some t1 := by
    rw [purgeDedupDb_append, hkeep2, lookupTs_append_left_none _ _ _ (hpurge_none t2)]
    exact lookupTs_singleton_self k t1
  have hlook3 : lookupTs (purgeDedupDb t3 (purgeDedupDb t1 st ++ [(k, t1)])) k
      = none := by
    rw [purgeDedupDb_append, hdrop3, List.append_nil]
    exact hpurge_none t3
  have e2 : dedupSeenDb t2 (purgeDedupDb t1 st ++ [(k, t1)]) k
      = (true, purgeDedupDb t2 (purgeDedupDb t1 st ++ [(k, t1)])) :=
    dedupSeenDb_dup t2 _ k t1 hlook2 (by unfold DEDUP_TTL_SECONDS; omega)
  have e3 : dedupSeenDb t3 (purgeDedupDb t1 st ++ [(k, t1)]) k
      = (false, purgeDedupDb t3 (purgeDedupDb t1 st ++ [(k, t1)]) ++ [(k, t3)]) :=
    dedupSeenDb_fresh t3 _ k hlook3
  have heqv : dedupSeen = dedupSeenDb := by
    funext now st' key
    have hfilter : purgeDedupMem now st' = purgeDedupDb now st' := by
      unfold purgeDedupMem purgeDedupDb
      refine List.filter_congr ?_
      intro kv _
      have hiff : (now - kv.2 > DEDUP_TTL_SECONDS) ↔ (kv.2 < now - DEDUP_TTL_SECONDS) := by
        constructor <;> (intro h; omega)
      rw [decide_eq_decide.mpr hiff]
    unfold dedupSeen dedupSeenDb
    rw [hfilter]
    cases lookupTs (purgeDedupDb now st') key <;> rfl
  refine ⟨by rw [hst1], by rw [hsnd]; exact hlook1, ?_, ?_, ?_, heqv⟩
  · rw [hsnd, e2]
  · rw [hsnd, e3]
  · rw [hsnd, e3]
    show lookupTs (purgeDedupDb t3 (purgeDedupDb t1 st ++ [(k, t1)]) ++ [(k, t3)]) k
      = some t3
    rw [lookupTs_append_left_none _ _ _ hlook3]
    exact lookupTs_singleton_self k t3

/-- Witness for C1 at a concrete key and concrete times 0, 100 and 301 on the
empty store. -/
theorem dedup_check_contract_instance :
    lookupTs (purgeDedupDb 0 ([] : TsStore String)) "evt" = none
    ∧ ((dedupSeenDb 0 ([] : TsStore String) "evt").1 = false
      ∧ lookupTs (dedupSeenDb 0 ([] : TsStore String) "evt").2 "evt" = some 0
      ∧ (dedupSeenDb 100 (dedupSeenDb 0 ([] : TsStore String) "evt").2 "evt").1 = true
      ∧ (dedupSeenDb 301 (dedupSeenDb 0 ([] : TsStore String) "evt").2 "evt").1 = false
      ∧ lookupTs (dedupSeenDb 301 (dedupSeenDb 0 ([] : TsStore String) "evt").2 "evt").2
          "evt" = some 301
      ∧ dedupSeen = dedupSeenDb) :=
  ⟨rfl, dedup_check_contract [] "evt" 0 100 301 rfl (by decide) (by decide) (by decide)⟩

theorem userThrottled_fresh (now : Int) (st : TsStore (Option String))
    (u : Option String) (hfresh : lookupTs (purgeThrottle now st) u = none) :
    userThrottled now st u = (false, purgeThrottle now st ++ [(u, now)]) := by
  unfold userThrottled
  rw [hfresh, setTs_of_lookupTs_none _ _ _ hfresh]

theorem userThrottled_hit (now : Int) (st : TsStore (Option String))
    (u : Option String) (ts : Int)
    (hl : lookupTs (purgeThrottle now st) u = some ts)
    (h : now - ts ≤ RUNNING_TTL_SECONDS) :
    userThrottled now st u = (true, purgeThrottle now st) := by
  unfold userThrottled
  rw [hl]
  exact if_pos h

theorem purgeThrottle_append (now : Int) (l1 l2 : TsStore (Option String)) :
    purgeThrottle now (l1 ++ l2) = purgeThrottle now l1 ++ purgeThrottle now l2 := by
  unfold purgeThrottle
  exact List.filter_append l1 l2

/-- C2. Throttle contract (src/main.py:285-311 `_user_throttled`): for a user
`u` with no unexpired entry at time `t1`, the first admission check admits
(`_user_throttled` returns `false`) and records `(u, t1)`; a second check at
`t2` within the 12-second window reports throttled (`true`) and leaves the
recorded time unchanged at `t1`; a check at `t3` more than 12 seconds after
`t1` admits again (the expired entry having been purged) and records `t3`. -/
theorem throttle_contract (st : TsStore (Option String)) (u : Option String)
    (t1 t2 t3 : Int)
    (hfresh : lookupTs (purgeThrottle t1 st) u = none)
    (h2a : 0 ≤ t2 - t1) (h2b : t2 - t1 ≤ 12) (h3 : 12 < t3 - t1) :
    (userThrottled t1 st u).1 = false
    ∧ lookupTs (userThrottled t1 st u).2 u = some t1
    ∧ (userThrottled t2 (userThrottled t1 st u).2 u).1 = true
    ∧ lookupTs (userThrottled t2 (userThrottled t1 st u).2 u).2 u = some t1
    ∧ (userThrottled t3 (userThrottled t1 st u).2 u).1 = false
    ∧ lookupTs (userThrottled t3 (userThrottled t1 st u).2 u).2 u = some t3 := by
  have hst1 : userThrottled t1 st u = (false, purgeThrottle t1 st ++ [(u, t1)]) :=
    userThrottled_fresh t1 st u hfresh
  have hsnd : (userThrottled t1 st u).2 = purgeThrottle t1 st ++ [(u, t1)] := by
    rw [hst1]
  have hlook1 : lookupTs (purgeThrottle t1 st ++ [(u, t1)]) u = some t1 := by
    rw [lookupTs_append_left_none _ _ _ hfresh]
    exact lookupTs_singleton_self u t1
  have hpurge_none : ∀ t : Int,
      lookupTs (purgeThrottle t (purgeThrottle t1 st)) u = none := fun t =>
    lookupTs_filter_none _ _ _ hfresh
  have hkeep2 : purgeThrottle t2 [(u, t1)] = [(u, t1)] := by
    unfold purgeThrottle RUNNING_TTL_SECONDS
    simp only [List.filter_cons, List.filter_nil]
    rw [if_pos (by simp only [Bool.not_eq_eq_eq_not, Bool.not_true,
      decide_eq_false_iff_not]; omega)]
  have hdrop3 : purgeThrottle t3 [(u, t1)] = [] := by
    unfold purgeThrottle RUNNING_TTL_SECONDS
    simp only [List.filter_cons, List.filter_nil]
    rw [if_neg (by simp only [Bool.not_eq_eq_eq_not, Bool.not_true,
      decide_eq_false_iff_not]; omega)]
  have hlook2 : lookupTs (purgeThrottle t2 (purgeThrottle t1 st ++ [(u, t1)])) u
      = some t1 := by
    rw [purgeThrottle_append, hkeep2, lookupTs_append_left_none _ _ _ (hpurge_none t2)]
    exact lookupTs_singleton_self u t1
  have hlook3 : lookupTs (purgeThrottle t3 (purgeThrottle t1 st ++ [(u, t1)])) u
      = none := by
    rw [purgeThrottle_append, hdrop3, List.append_nil]
    exact hpurge_none t3
  have e2 : userThrottled t2 (purgeThrottle t1 st ++ [(u, t1)]) u
      = (true, purgeThrottle t2 (purgeThrottle t1 st ++ [(u, t1)])) :=
    userThrottled_hit t2 _ u t1 hlook2 (by unfold RUNNING_TTL_SECONDS; omega)
  have e3 : userThrottled t3 (purgeThrottle t1 st ++ [(u, t1)]) u
      = (false, purgeThrottle t3 (purgeThrottle t1 st ++ [(u, t1)]) ++ [(u, t3)]) :=
    userThrottled_fresh t3 _ u hlook3
  refine ⟨by rw [hst1], by rw [hsnd]; exact hlook1, ?_, ?_, ?_, ?_⟩
  · rw [hsnd, e2]
  · rw [hsnd, e2]
    exact hlook2
  · rw [hsnd, e3]
  · rw [hsnd, e3]
    show lookupTs (purgeThrottle t3 (purgeThrottle t1 st ++ [(u, t1)]) ++ [(u, t3)]) u
      = some t3
    rw [lookupTs_append_left_none _ _ _ hlook3]
    exact lookupTs_singleton_self u t3

/-- Witness for C2 at a concrete user and concrete times 0, 5 and 13 on the
empty map. -/
theorem throttle_contract_instance :
    lookupTs (purgeThrottle 0 ([] : TsStore (Option String))) (some "U1") = none
    ∧ ((userThrottled 0 ([] : TsStore (Option String)) (some "U1")).1 = false
      ∧ lookupTs (userThrottled 0 ([] : TsStore (Option String)) (some "U1")).2
          (some "U1") = some 0
      ∧ (userThrottled 5 (userThrottled 0 ([] : TsStore (Option String))
          (some "U1")).2 (some "U1")).1 = true
      ∧ lookupTs (userThrottled 5 (userThrottled 0 ([] : TsStore (Option String))
          (some "U1")).2 (some "U1")).2 (some "U1") = some 0
      ∧ (userThrottled 13 (userThrottled 0 ([] : TsStore (Option String))
          (some "U1")).2 (some "U1")).1 = false
      ∧ lookupTs (userThrottled 13 (userThrottled 0 ([] : TsStore (Option String))
          (some "U1")).2 (some "U1")).2 (some "U1") = some 13) :=
  ⟨rfl, throttle_contract [] (some "U1") 0 5 13 rfl (by decide) (by decide) (by decide)⟩

/-- Python string slicing `s[:n]` (per code point, as Python `str` indexing is). -/
def strTake (s : String) (n : Nat) : String := String.mk (s.data.take n)

/-- Python `str.lower()` (per character; the claims only exercise ASCII and
Thai characters, which `Char.toLower` maps as Python does). -/
def strLower (s : String) : String := String.mk (s.data.map Char.toLower)

/-- One stored conversation turn of the `memory` table (src/main.py:192-198),
for a fixed user: its `role` and `text` columns. The table is modelled per
user as a chronological list (rows in `ts` order, timestamps distinct). -/
structure Turn where
  role : String
  text : String

/-- Model of `memory_get_recent` (src/main.py:225-247):
`SELECT role, text ... ORDER BY ts DESC LIMIT limit` followed by
`list(reversed(rows))` — the last `limit` turns, oldest to newest. -/
def memoryGetRecent (turns : List Turn) (limit : Nat) : List Turn :=
  (turns.reverse.take limit).reverse

/-- Truncation step of `build_memory_context` (src/main.py:269-270): keep at
most 300 characters and append an ellipsis when truncated. -/
def truncate300 (t : String) : String :=
  if t.length > 300 then strTake t 300 ++ "..." else t

/-- Role label of `build_memory_context` (src/main.py:267): Thai "user" label
for role `user` (case-insensitively), Thai "bot" label otherwise. -/
def roleLabelOf (role : String) : String :=
  if strLower role == "user" then "ผู้ใช้" else "บอท"

/-- Per-turn formatting of `build_memory_context` (src/main.py:264-271): a
turn with empty text is skipped; otherwise the line is
`<role-label>: <stripped text truncated to 300 chars>`. -/
def formatTurn (t : Turn) : Option String :=
  if t.text == "" then none
  else some (roleLabelOf t.role ++ ": " ++ truncate300 (stripStr t.text))

/-- The line produced for a turn whose text is nonempty. -/
def contextLine (t : Turn) : String :=
  roleLabelOf t.role ++ ": " ++ truncate300 (stripStr t.text)

/-- Fixed header of the memory context (src/main.py:274). -/
def memoryHeader : String := "บริบทก่อนหน้า (สรุปย่อ):\n"

/-- Model of `build_memory_context` (src/main.py:249-274): nothing when no
rows; per-row formatted lines (empty texts skipped); nothing when no lines
survive; else the fixed header followed by the newline-joined lines. -/
def buildMemoryContext (turns : List Turn) (limit : Nat) : Option String :=
  if (memoryGetRecent turns limit).isEmpty then none
  else if ((memoryGetRecent turns limit).filterMap formatTurn).isEmpty then none
  else some (memoryHeader ++ String.intercalate "\n"
    ((memoryGetRecent turns limit).filterMap formatTurn))

theorem filterMap_formatTurn_eq_map (l : List Turn)
    (h : ∀ t ∈ l, t.text ≠ "") : l.filterMap formatTurn = l.map contextLine := by
  induction l with
  | nil => rfl
  | cons t rest ih =>
    have ht : (t.text == "") = false := by
      have := h t (List.mem_cons_self t rest)
      simpa using this
    have hrest := ih (fun t' ht' => h t' (List.mem_cons_of_mem t ht'))
    simp only [List.filterMap_cons, List.map_cons, formatTurn, ht,
      Bool.false_eq_true, if_false, hrest, contextLine]

theorem mem_memoryGetRecent (turns : List Turn) (limit : Nat) (t : Turn)
    (h : t ∈ memoryGetRecent turns limit) : t ∈ turns := by
  unfold memoryGetRecent at h
  rw [List.mem_reverse] at h
  have := List.mem_of_mem_take h
  rwa [List.mem_reverse] at this

theorem truncate300_length_le (s : String) : (truncate300 s).length ≤ 303 := by
  unfold truncate300
  by_cases hlen : s.length > 300
  · rw [if_pos hlen]
    have h1 : (strTake s 300).length ≤ 300 := by
      show (String.mk (s.data.take 300)).length ≤ 300
      show (s.data.take 300).length ≤ 300
      rw [List.length_take]
      omega
    calc (strTake s 300 ++ "...").length
        = (strTake s 300).length + ("..." : String).length := String.length_append _ _
      _ ≤ 303 := by
        have : ("..." : String).length = 3 := rfl
        omega
  · rw [if_neg hlen]
    omega

/-- C5. Memory context builder (src/main.py:249-274 `build_memory_context`,
src/main.py:225-247 `memory_get_recent`): with zero stored turns the context
is nothing; with more stored turns than `limit` (all texts nonempty) the
context is exactly the fixed header followed by the newline-joined lines of
the most recent `limit` turns in chronological order — each line being
`<role-label>: <text>` with the stripped text truncated by `truncate300`
(at most 300 characters of the stored text, plus an ellipsis), every line
no longer than 303 characters past its label. -/
theorem memory_context_contract (turns : List Turn) (limit : Nat)
    (hlim : 0 < limit) (hlen : limit < turns.length)
    (hne : ∀ t ∈ turns, t.text ≠ "") :
    buildMemoryContext [] limit = none
    ∧ memoryGetRecent turns limit = (turns.reverse.take limit).reverse
    ∧ (memoryGetRecent turns limit).length = limit
    ∧ buildMemoryContext turns limit
        = some (memoryHeader ++ String.intercalate "\n"
            ((memoryGetRecent turns limit).map contextLine))
    ∧ (∀ s : String, (truncate300 s).length ≤ 303) := by
  have hrows_len : (memoryGetRecent turns limit).length = limit := by
    unfold memoryGetRecent
    rw [List.length_reverse, List.length_take, List.length_reverse]
    omega
  have hrows_ne : memoryGetRecent turns limit ≠ [] := by
    intro h0
    rw [h0] at hrows_len
    simp at hrows_len
    omega
  have hrows_empty : (memoryGetRecent turns limit).isEmpty = false := by
    cases hrows : memoryGetRecent turns limit
    · exact absurd hrows hrows_ne
    · rfl
  have hmap : (memoryGetRecent turns limit).filterMap formatTurn
      = (memoryGetRecent turns limit).map contextLine :=
    filterMap_formatTurn_eq_map _ (fun t ht =>
      hne t (mem_memoryGetRecent turns limit t ht))
  have hlines_empty : ((memoryGetRecent turns limit).filterMap formatTurn).isEmpty
      = false := by
    rw [hmap]
    cases hrows : memoryGetRecent turns limit
    · exact absurd hrows hrows_ne
    · rfl
  refine ⟨?_, rfl, hrows_len, ?_, truncate300_length_le⟩
  · unfold buildMemoryContext memoryGetRecent
    simp
  · unfold buildMemoryContext
    rw [hrows_empty, hlines_empty, hmap]
    rfl

/-- Witness for C5: three stored turns, limit two — the context keeps the two
most recent turns, in order, under the fixed header. -/
theorem memory_context_contract_instance :
    (0 < 2 ∧ 2 < ([⟨"user", "a"⟩, ⟨"assistant", "b"⟩, ⟨"user", "c"⟩] : List Turn).length)
    ∧ (buildMemoryContext [] 2 = none
      ∧ memoryGetRecent [⟨"user", "a"⟩, ⟨"assistant", "b"⟩, ⟨"user", "c"⟩] 2
          = (([⟨"user", "a"⟩, ⟨"assistant", "b"⟩, ⟨"user", "c"⟩] :
              List Turn).reverse.take 2).reverse
      ∧ (memoryGetRecent [⟨"user", "a"⟩, ⟨"assistant", "b"⟩, ⟨"user", "c"⟩] 2).length = 2
      ∧ buildMemoryContext [⟨"user", "a"⟩, ⟨"assistant", "b"⟩, ⟨"user", "c"⟩] 2
          = some (memoryHeader ++ String.intercalate "\n"
              ((memoryGetRecent [⟨"user", "a"⟩, ⟨"assistant", "b"⟩, ⟨"user", "c"⟩] 2).map
                contextLine))
      ∧ (∀ s : String, (truncate300 s).length ≤ 303)) :=
  ⟨⟨by decide, by decide⟩,
    memory_context_contract [⟨"user", "a"⟩, ⟨"assistant", "b"⟩, ⟨"user", "c"⟩] 2
      (by decide) (by decide)
      (by intro t ht; fin_cases ht <;> simp)⟩

/-- Python truthiness of a JSON value (used by `x or default` idioms). -/
def jsonTruthy : Json → Bool
  | .null => false
  | .bool b => b
  | .num m _ => m != 0
  | .str s => s != ""
  | .arr items => !items.isEmpty
  | .obj fields => !fields.isEmpty

/-- Decimal rendering of a mantissa/scale number, as Python `str()` renders
ints and simple floats. -/
def pyReprNum (m : Int) (scale : Nat) : String :=
  if scale == 0 then toString m
  else
    let sign := if m < 0 then "-" else ""
    let digits := toString m.natAbs
    let padded :=
      if digits.length ≤ scale then
        String.mk (List.replicate (scale + 1 - digits.length) '0') ++ digits
      else digits
    sign ++ strTake padded (padded.length - scale) ++ "." ++
      String.mk (padded.data.drop (padded.length - scale))

/-- Python `str()` of a JSON value (fuel-indexed over nesting depth). Only the
scalar cases are observable through the claims; container rendering is
modelled up to Python's quote style. -/
def pyStrReprFuel : Nat → Json → String
  | _, .null => "None"
  | _, .bool b => if b then "True" else "False"
  | _, .num m k => pyReprNum m k
  | _, .str s => s
  | 0, .arr _ => ""
  | 0, .obj _ => ""
  | fuel + 1, .arr items =>
    "[" ++ String.intercalate ", "
      (items.map (fun j =>
        match j with
        | .str s => "\"" ++ s ++ "\""
        | _ => pyStrReprFuel fuel j)) ++ "]"
  | fuel + 1, .obj fields =>
    "\x7b" ++ String.intercalate ", "
      (fields.map (fun kv =>
        "\"" ++ kv.1 ++ "\": " ++
          (match kv.2 with
           | .str s => "\"" ++ s ++ "\""
           | _ => pyStrReprFuel fuel kv.2))) ++ "\x7d"

/-- Python `str()` of a JSON value. The fuel bound mirrors Python's default
recursion limit (about 1000 frames); every value the claims touch is shallow. -/
def pyStrRepr (j : Json) : String := pyStrReprFuel 1000 j

/-- Model of `(message.get("type") or "").lower()` (src/main.py:791): `none`
means the `AttributeError` raised when the `type` value is truthy but not a
string — caught by the function's outer `except`, so the send fails. -/
def pyTypeLower (message : Fields) : Option String :=
  match lookupField message "type" with
  | none => some ""
  | some v =>
    if jsonTruthy v then
      match v with
      | .str s => some (strLower s)
      | _ => none
    else some ""

/-- The `text` field when it is a string (`isinstance(message.get("text"), str)`,
src/main.py:792). -/
def textFieldStr (message : Fields) : Option String :=
  match lookupField message "text" with
  | some (.str s) => some s
  | _ => none

/-- Model of `str(message.get("altText") or "ข้อความสำคัญ")` (src/main.py:802). -/
def altTextValue (message : Fields) : String :=
  match lookupField message "altText" with
  | some v => if jsonTruthy v then pyStrRepr v else "ข้อความสำคัญ"
  | none => "ข้อความสำคัญ"

/-- Payload construction of `_fallback_push_line_message` (src/main.py:788-806):
a `text`-typed message with a string body becomes a text payload truncated to
5000 characters; otherwise a message carrying both `contents` and `altText`
becomes a flex payload with `altText` stringified and truncated to 400
characters; anything else (including an `AttributeError` from a non-string
`type`) yields `none`, and the function returns `False` without sending. -/
def buildPayloadMessage (message : Fields) : Option Fields :=
  match pyTypeLower message with
  | none => none
  | some mtype =>
    if mtype == "text" && (textFieldStr message).isSome then
      some [("type", Json.str "text"),
            ("text", Json.str (strTake ((textFieldStr message).getD "") 5000))]
    else if hasField message "contents" && hasField message "altText" then
      some [("type", Json.str "flex"),
            ("altText", Json.str (strTake (altTextValue message) 400)),
            ("contents", (lookupField message "contents").getD Json.null)]
    else none

/-- Python truthiness of an optional string (`None` and `""` are falsy). -/
def optTruthy : Option String → Bool
  | some s => s != ""
  | none => false

/-- Optional string normalised by truthiness: `None` and `""` both count as
absent. -/
def truthyOpt : Option String → Option String
  | some s => if s == "" then none else some s
  | none => none

/-- An outbound HTTP request to the LINE messaging API, as assembled by
`_fallback_push_line_message` (src/main.py:808-822). -/
structure PushRequest where
  url : String
  toUser : Option String
  replyToken : Option String
  messages : List Fields

/-- Reply endpoint (src/main.py:811). -/
def replyUrl : String := "https://api.line.me/v2/bot/message/reply"

/-- Push endpoint (src/main.py:818). -/
def pushUrl : String := "https://api.line.me/v2/bot/message/push"

/-- Model of `_fallback_push_line_message` (src/main.py:767-845). The HTTP
round trip is abstracted by `httpOk` (2xx response); the result pairs the
returned success flag with the request actually issued (`none` when the
function returns `False` before any network call). -/
def fallbackPushLineMessage (token userId : Option String) (message : Fields)
    (replyToken : Option String) (httpOk : Bool) : Bool × Option PushRequest :=
  if !(optTruthy token) || !(optTruthy userId) then (false, none)
  else
    match buildPayloadMessage message with
    | none => (false, none)
    | some pm =>
      match truthyOpt replyToken with
      | some rt => (httpOk, some ⟨replyUrl, none, some rt, [pm]⟩)
      | none => (httpOk, some ⟨pushUrl, userId, none, [pm]⟩)

/-- Modelled from the spec (§3 `OutboundMessage`): a payload is valid outbound
iff it is exactly one variant — `type:"text"` with a string body of at most
5000 characters, or `type:"flex"` with an `altText` of at most 400 characters
and `contents`. Written from the spec's words, to compare with what the code
sends. -/
def specValidOutbound : Fields → Bool
  | [(k1, Json.str v1), (k2, Json.str s)] =>
    k1 == "type" && v1 == "text" && k2 == "text" && decide (s.length ≤ 5000)
  | [(k1, Json.str v1), (k2, Json.str a), (k3, _)] =>
    k1 == "type" && v1 == "flex" && k2 == "altText" && k3 == "contents"
      && decide (a.length ≤ 400)
  | _ => false

theorem strTake_length_le (s : String) (n : Nat) : (strTake s n).length ≤ n := by
  show (s.data.take n).length ≤ n
  rw [List.length_take]
  omega

/-- C9 counterexample: a payload whose variant tag is `text` but which lacks a
string text body is nevertheless sent — `_fallback_push_line_message` falls
through to the flex branch because the payload also carries `altText` and
`contents`, so the claim "a payload lacking the required fields for its tag is
never sent" fails at this input. -/
theorem outbound_send_tag_mismatch :
    buildPayloadMessage [("type", Json.str "text"), ("altText", Json.str "a"),
        ("contents", Json.obj [])]
      = some [("type", Json.str "flex"), ("altText", Json.str "a"),
          ("contents", Json.obj [])]
    ∧ fallbackPushLineMessage (some "tok") (some "U") [("type", Json.str "text"),
        ("altText", Json.str "a"), ("contents", Json.obj [])] none true
      = (true, some ⟨pushUrl, some "U", none,
          [[("type", Json.str "flex"), ("altText", Json.str "a"),
            ("contents", Json.obj [])]]⟩) :=
  ⟨rfl, rfl⟩

/-- C9, amended. Outbound message validity (src/main.py:767-845
`_fallback_push_line_message`): every payload the send function actually
issues is a valid `OutboundMessage` (exactly one variant with its required
fields and length bounds) and is exactly the constructed payload — but the
variant chosen need not match the input's own `type` tag: an input is sent iff
it is a `text`-typed message with a string body, or it carries both
`contents` and `altText` (sent as flex regardless of its tag); anything else
is not sent and the send reports failure. -/
theorem outbound_send_validity (token userId : Option String) (m : Fields)
    (rt : Option String) (httpOk : Bool) :
    (buildPayloadMessage m = none →
      fallbackPushLineMessage token userId m rt httpOk = (false, none))
    ∧ (∀ p, buildPayloadMessage m = some p → specValidOutbound p = true)
    ∧ (∀ p req, buildPayloadMessage m = some p →
        (fallbackPushLineMessage token userId m rt httpOk).2 = some req →
        req.messages = [p]) := by
  refine ⟨?_, ?_, ?_⟩
  · intro hnone
    unfold fallbackPushLineMessage
    by_cases htok : (!(optTruthy token) || !(optTruthy userId)) = true
    · rw [if_pos htok]
    · rw [if_neg htok, hnone]
  · intro p hp
    unfold buildPayloadMessage at hp
    split at hp
    · exact absurd hp (by simp)
    · split at hp
      · obtain rfl := Option.some.inj hp
        have hb : (strTake ((textFieldStr m).getD "") 5000).length ≤ 5000 :=
          strTake_length_le _ _
        simp [specValidOutbound, hb]
      · split at hp
        · obtain rfl := Option.some.inj hp
          have hb : (strTake (altTextValue m) 400).length ≤ 400 :=
            strTake_length_le _ _
          simp [specValidOutbound, hb]
        · exact absurd hp (by simp)
  · intro p req hp hreq
    unfold fallbackPushLineMessage at hreq
    by_cases htok : (!(optTruthy token) || !(optTruthy userId)) = true
    · rw [if_pos htok] at hreq
      exact absurd hreq (by simp)
    · rw [if_neg htok, hp] at hreq
      cases hrt : truthyOpt rt with
      | some r =>
        rw [hrt] at hreq
        obtain rfl := Option.some.inj hreq
        rfl
      | none =>
        rw [hrt] at hreq
        obtain rfl := Option.some.inj hreq
        rfl

/-- Witness for C9's amended theorem: a message fitting neither construction
is not sent, and a valid text message is sent with the valid shape. -/
theorem outbound_send_validity_instance :
    buildPayloadMessage [("foo", Json.str "x")] = none
    ∧ fallbackPushLineMessage (some "tok") (some "U") [("foo", Json.str "x")]
        none true = (false, none)
    ∧ buildPayloadMessage [("type", Json.str "text"), ("text", Json.str "hi")]
        = some [("type", Json.str "text"), ("text", Json.str "hi")]
    ∧ specValidOutbound [("type", Json.str "text"), ("text", Json.str "hi")] = true :=
  ⟨rfl,
    (outbound_send_validity (some "tok") (some "U") [("foo", Json.str "x")]
      none true).1 rfl,
    rfl,
    (outbound_send_validity (some "tok") (some "U")
      [("type", Json.str "text"), ("text", Json.str "hi")] none true).2.1
      [("type", Json.str "text"), ("text", Json.str "hi")] rfl⟩

/-- Python substring test `pat in hay`. -/
def containsSub (hay pat : String) : Bool :=
  (List.range (hay.data.length + 1)).any
    (fun i => startsWithChars pat.data (hay.data.drop i))

/-- Card-intent keyword heuristic, written three times verbatim in the source
(src/main.py:509-519, 647-657, 670-680): `"flex"` in the lowercased text, or
any of the Thai keywords (flex transliterations, card, menu, promo/promotion
spellings, coupon) as exact substrings. -/
def wantsFlex (messageText : String) : Bool :=
  containsSub (strLower messageText) "flex"
  || containsSub messageText "เฟล็ก"
  || containsSub messageText "เฟลก"
  || containsSub messageText "การ์ด"
  || containsSub messageText "เมนู"
  || containsSub messageText "โปร"
  || (containsSub messageText "โปรโมชัน" || containsSub messageText "โปรโมชั่น")
  || containsSub messageText "คูปอง"

/-- The hardcoded demonstration bubble of `_send_demo_flex`
(src/main.py:909-921), verbatim. -/
def demoContents : Json :=
  Json.obj [
    ("type", Json.str "bubble"),
    ("body", Json.obj [
      ("type", Json.str "box"),
      ("layout", Json.str "vertical"),
      ("contents", Json.arr [
        Json.obj [("type", Json.str "text"), ("text", Json.str "ตัวอย่างโปรโมชัน"),
          ("weight", Json.str "bold"), ("size", Json.str "lg")],
        Json.obj [("type", Json.str "text"),
          ("text", Json.str "ส่วนลดพิเศษ 20% สำหรับลูกค้าใหม่"),
          ("wrap", Json.bool true), ("size", Json.str "sm"),
          ("color", Json.str "#555555")],
        Json.obj [("type", Json.str "separator"), ("margin", Json.str "md")],
        Json.obj [("type", Json.str "button"), ("style", Json.str "primary"),
          ("margin", Json.str "md"),
          ("action", Json.obj [("type", Json.str "uri"),
            ("label", Json.str "ดูรายละเอียด"),
            ("uri", Json.str "https://example.com/")])]])])]

/-- The fixed message `_send_demo_flex` passes to the push helper
(src/main.py:922-925): the fixed alt text and the demonstration bubble;
note it carries no `type` field. -/
def demoMsg : Fields :=
  [("altText", Json.str "ตัวอย่างโปรโมชัน - ดูรายละเอียด"),
   ("contents", demoContents)]

/-- Model of `_send_demo_flex` (src/main.py:897-927): push the fixed
demonstration card through `_fallback_push_line_message`. -/
def sendDemoFlex (token userId : Option String) (replyToken : Option String)
    (httpOk : Bool) : Bool × Option PushRequest :=
  fallbackPushLineMessage token userId demoMsg replyToken httpOk

/-- One delivery attempt of the fallback chain: a structured message via
`_fallback_push_line_message` (the flag records whether the reply token is
passed), or a plain text push via `_fallback_push_line_text`. -/
inductive Attempt where
  | message : Fields → Bool → Attempt
  | text : String → Attempt

/-- Fixed apology text of the terminal fallback (src/main.py:693). -/
def apologyText : String :=
  "ขออภัย เกิดข้อผิดพลาดในการส่งข้อความ ลองใหม่อีกครั้งนะครับ/ค่ะ"

/-- Python truthiness of the agent's optional final text (`if final_text:`). -/
def ftTruthy : Option String → Bool
  | some t => t != ""
  | none => false

/-- Python truthiness of the parse result (`if msg_obj:` — an empty dict is
falsy). -/
def objTruthy : Option Fields → Bool
  | some (_ :: _) => true
  | _ => false

/-- Structural check of src/main.py:613:
`msg_obj.get("type") == "flex" and "contents" in msg_obj and "altText" in msg_obj`. -/
def validFlexShape (m : Fields) : Bool :=
  (match lookupField m "type" with
   | some (.str s) => s == "flex"
   | _ => false)
  && hasField m "contents" && hasField m "altText"

/-- Structural check of src/main.py:625:
`msg_obj.get("type") == "text" and "text" in msg_obj`. -/
def validTextShape (m : Fields) : Bool :=
  (match lookupField m "type" with
   | some (.str s) => s == "text"
   | _ => false)
  && hasField m "text"

/-- Terminal stage S4 of the chain (src/main.py:692-702): push
`final_text or apology` as plain text; attempted regardless of outcome. -/
def chainS4 (finalText : Option String) : List Attempt :=
  [Attempt.text (match finalText with
    | some t => if t != "" then t else apologyText
    | none => apologyText)]

/-- Stage S3 (src/main.py:669-690): when the user asked for a card, a final
text exists, but no truthy parse resulted, push the demo card without the
reply token; on failure fall through to S4. -/
def chainS3 (messageText : String) (finalText : Option String)
    (msgObj : Option Fields) (ok : Attempt → Bool) : List Attempt :=
  if wantsFlex messageText && ftTruthy finalText && !(objTruthy msgObj) then
    if ok (Attempt.message demoMsg false) then [Attempt.message demoMsg false]
    else Attempt.message demoMsg false :: chainS4 finalText
  else chainS4 finalText

/-- Stage S2 (src/main.py:644-667): on a quota-exhaustion failure with
card intent, push the demo card with the reply token; on failure fall
through to S3. -/
def chainS2 (messageText : String) (finalText : Option String)
    (msgObj : Option Fields) (resourceExhausted : Bool) (ok : Attempt → Bool) :
    List Attempt :=
  if resourceExhausted && wantsFlex messageText then
    if ok (Attempt.message demoMsg true) then [Attempt.message demoMsg true]
    else Attempt.message demoMsg true :: chainS3 messageText finalText msgObj ok
  else chainS3 messageText finalText msgObj ok

/-- Stage S1 (src/main.py:606-642): when the final text parsed to a truthy
object of a valid flex or text shape, reply with it; on failure (or invalid
shape) fall through to S2. -/
def chainS1 (messageText : String) (finalText : Option String)
    (msgObj : Option Fields) (resourceExhausted : Bool) (ok : Attempt → Bool) :
    List Attempt :=
  if objTruthy msgObj then
    if validFlexShape (msgObj.getD []) || validTextShape (msgObj.getD []) then
      if ok (Attempt.message (msgObj.getD []) true) then
        [Attempt.message (msgObj.getD []) true]
      else Attempt.message (msgObj.getD []) true
        :: chainS2 messageText finalText msgObj resourceExhausted ok
    else chainS2 messageText finalText msgObj resourceExhausted ok
  else chainS2 messageText finalText msgObj resourceExhausted ok

/-- Parse of the final text, only attempted when it is truthy
(src/main.py:606-608). -/
def parsedMsgObj (finalText : Option String) : Option Fields :=
  if ftTruthy finalText then tryParseMessageObj (finalText.getD "") else none

/-- Model of the fallback chain of `process_with_adk_agent` after the agent
stream ends (src/main.py:591-702): nothing when a tool delivery already
succeeded; otherwise the stages S1-S4 in order, each attempt recorded, the
first success (per the `ok` send oracle) terminating the chain, S4 terminal
regardless. Memory recording side effects are not modelled. -/
def deliveryChain (messageText : String) (toolDone : Bool)
    (finalText : Option String) (resourceExhausted : Bool)
    (ok : Attempt → Bool) : List Attempt :=
  if toolDone then []
  else chainS1 messageText finalText (parsedMsgObj finalText) resourceExhausted ok

/-- C6. Demo card on quota exhaustion (src/main.py:645-667, 897-927): when the
backend invocation failed with a quota signal (`resource_exhausted`), the user
text matches the card-intent heuristic, no tool delivery happened and there is
no final text to parse, and the card push succeeds, then the chain's final
(and only) action is pushing the fixed demonstration card `demoMsg` with the
reply token — and the exact payload reaching the outbound call is the fixed
flex message with the fixed alt text and the fixed bubble. -/
theorem demo_card_on_quota (messageText : String) (ok : Attempt → Bool)
    (hflex : wantsFlex messageText = true)
    (hok : ok (Attempt.message demoMsg true) = true) :
    deliveryChain messageText false none true ok = [Attempt.message demoMsg true]
    ∧ buildPayloadMessage demoMsg
        = some [("type", Json.str "flex"),
            ("altText", Json.str "ตัวอย่างโปรโมชัน - ดูรายละเอียด"),
            ("contents", demoContents)] := by
  constructor
  · unfold deliveryChain parsedMsgObj chainS1 chainS2
    simp [ftTruthy, objTruthy, hflex, hok]
  · rfl

/-- Witness for C6: the concrete Thai text asking for a coupon, with a send
oracle that accepts. -/
theorem demo_card_on_quota_instance :
    wantsFlex "ขอคูปอง" = true
    ∧ (deliveryChain "ขอคูปอง" false none true (fun _ => true)
        = [Attempt.message demoMsg true]
      ∧ buildPayloadMessage demoMsg
          = some [("type", Json.str "flex"),
              ("altText", Json.str "ตัวอย่างโปรโมชัน - ดูรายละเอียด"),
              ("contents", demoContents)]) :=
  ⟨rfl, demo_card_on_quota "ขอคูปอง" (fun _ => true) rfl rfl⟩

/-- Source block of an inbound LINE event (`ev["source"]`). -/
structure SourceInfo where
  userId : Option String

/-- Message block of an inbound LINE event (`ev["message"]`). -/
structure InMsg where
  mtype : String
  msgId : Option String
  text : Option String

/-- One inbound webhook event as the handler reads it (raw dict access,
src/main.py:433-463): `type`, optional `message`, optional `replyToken`,
optional `source`, optional `webhookEventId`. -/
structure Event where
  etype : String
  message : Option InMsg
  replyToken : Option String
  source : Option SourceInfo
  webhookEventId : Option String

/-- Environment configuration read at import time (src/main.py:38-41); each
value is `None` when the variable is unset. -/
structure Config where
  lineChannelAccessToken : Option String
  lineChannelSecret : Option String
  destinationUserId : Option String
  googleApiKey : Option String

/-- Model of module import-time initialization (src/main.py:30-44, 277):
`load_dotenv`, the four `os.getenv` reads, and `_memory_init()` (which catches
its own exceptions). No configuration value is validated at import time, so
startup never fails on a missing value. -/
def startupInit (cfg : Config) : Except String Config := Except.ok cfg

/-- Model of `get_runner` / `create_campaign_agent` (src/main.py:47-65,
392-405): raises when the access token or destination user id is missing, or
when the Google API key is missing; the runner itself is opaque. The
process-wide caching of the runner does not change the outcome because the
configuration is fixed for the process lifetime. -/
def getRunner (cfg : Config) : Except String Unit :=
  if !(optTruthy cfg.lineChannelAccessToken) || !(optTruthy cfg.destinationUserId) then
    Except.error "Missing LINE_CHANNEL_ACCESS_TOKEN or DESTINATION_USER_ID for MCP server"
  else if !(optTruthy cfg.googleApiKey) then
    Except.error "Missing GOOGLE_API_KEY for Google Generative AI"
  else Except.ok ()

/-- Python `f"{x}"` of an optional string (`None` prints as "None"). -/
def pyShowOpt : Option String → String
  | some s => s
  | none => "None"

/-- User id resolution of src/main.py:444:
`((ev.get("source") or {}).get("userId")) or DESTINATION_USER_ID`. -/
def uidOf (cfg : Config) (ev : Event) : Option String :=
  match ev.source with
  | some src =>
    match truthyOpt src.userId with
    | some u => some u
    | none => cfg.destinationUserId
  | none => cfg.destinationUserId

/-- Dedup key of src/main.py:449:
`evt_id or (f"{user_id}:{msg_id}" if msg_id else f"{user_id}:{hash(text)}")`.
Python's process-seeded `hash` is abstracted by the `hashFn` parameter. -/
def dedupKeyOf (uid : Option String) (text : String) (msgId evtId : Option String)
    (hashFn : String → Int) : String :=
  match truthyOpt evtId with
  | some e => e
  | none =>
    match truthyOpt msgId with
    | some mid => pyShowOpt uid ++ ":" ++ mid
    | none => pyShowOpt uid ++ ":" ++ toString (hashFn text)

/-- The mutable state the webhook touches: the durable dedup store and the
in-process throttle map. -/
structure WebState where
  dedup : TsStore String
  throttle : TsStore (Option String)

/-- Per-event outcome of the webhook loop (src/main.py:433-472), mirroring the
skip paths the code logs and the dispatch at line 468. -/
inductive EvOutcome where
  | notText : EvOutcome
  | dup : EvOutcome
  | throttled : EvOutcome
  | noToken : EvOutcome
  | runnerError : EvOutcome
  | dispatched : String → Option String → String → EvOutcome

/-- Whether an outcome is a background-pipeline dispatch. -/
def isDispatched : EvOutcome → Bool
  | .dispatched _ _ _ => true
  | _ => false

/-- Model of one iteration of the webhook event loop (src/main.py:433-472):
skip non-text events; compute the resolved user id, text and dedup key; skip
duplicates (the dedup store now holds the key); skip throttled users; skip
events without a truthy reply token; then obtain the runner — a raised
configuration error is caught by the per-event `except` and the event is
skipped — and dispatch the pipeline. -/
def handleEvent (cfg : Config) (hashFn : String → Int) (now : Int)
    (st : WebState) (ev : Event) : EvOutcome × WebState :=
  if ev.etype != "message" then (.notText, st)
  else
    match ev.message with
    | none => (.notText, st)
    | some m =>
      if m.mtype != "text" then (.notText, st)
      else
        match dedupSeenDb now st.dedup
          (dedupKeyOf (uidOf cfg ev) (m.text.getD "") m.msgId ev.webhookEventId hashFn) with
        | (true, dst) => (.dup, ⟨dst, st.throttle⟩)
        | (false, dst) =>
          match userThrottled now st.throttle (uidOf cfg ev) with
          | (true, tst) => (.throttled, ⟨dst, tst⟩)
          | (false, tst) =>
            match truthyOpt ev.replyToken with
            | none => (.noToken, ⟨dst, tst⟩)
            | some tok =>
              match getRunner cfg with
              | .error _ => (.runnerError, ⟨dst, tst⟩)
              | .ok _ => (.dispatched (m.text.getD "") (uidOf cfg ev) tok, ⟨dst, tst⟩)

/-- The webhook loop over the `events` list, threading the state. -/
def runEvents (cfg : Config) (hashFn : String → Int) (now : Int) :
    WebState → List Event → List EvOutcome × WebState
  | st, [] => ([], st)
  | st, ev :: rest =>
    match handleEvent cfg hashFn now st ev with
    | (o, st1) =>
      match runEvents cfg hashFn now st1 rest with
      | (os, st2) => (o :: os, st2)

/-- Model of the `webhook` endpoint body after JSON parsing succeeded
(src/main.py:428-477): process each event, then answer `"ok"` when at least
one pipeline was dispatched and `"ignored"` otherwise. -/
def webhookRun (cfg : Config) (hashFn : String → Int) (now : Int)
    (st : WebState) (events : List Event) : String × List EvOutcome × WebState :=
  match runEvents cfg hashFn now st events with
  | (os, st1) => (if os.any isDispatched then "ok" else "ignored", os, st1)

/-- C7. No reply token, no dispatch (src/main.py:460-477): for a webhook body
whose only event is a text message event without a reply token, no pipeline is
dispatched — whatever the dedup or throttle state — and the response status is
`"ignored"`. -/
theorem webhook_no_reply_token (cfg : Config) (hashFn : String → Int)
    (now : Int) (st : WebState) (ev : Event) (m : InMsg)
    (hmsg : ev.etype = "message") (hm : ev.message = some m)
    (htext : m.mtype = "text") (htok : ev.replyToken = none) :
    (webhookRun cfg hashFn now st [ev]).1 = "ignored"
    ∧ ((webhookRun cfg hashFn now st [ev]).2.1).any isDispatched = false := by
  have hout : ∀ st', (handleEvent cfg hashFn now st' ev).1 = EvOutcome.dup
      ∨ (handleEvent cfg hashFn now st' ev).1 = EvOutcome.throttled
      ∨ (handleEvent cfg hashFn now st' ev).1 = EvOutcome.noToken := by
    intro st'
    unfold handleEvent
    simp only [hmsg, hm, htext, htok, bne_self_eq_false, Bool.false_eq_true, if_false]
    cases hd : dedupSeenDb now st'.dedup
        (dedupKeyOf (uidOf cfg ev) (m.text.getD "") m.msgId ev.webhookEventId hashFn) with
    | mk dup dst =>
      cases dup
      · cases ht : userThrottled now st'.throttle (uidOf cfg ev) with
        | mk thr tst =>
          cases thr
          · simp [truthyOpt]
          · simp
      · simp
  have hrun : webhookRun cfg hashFn now st [ev]
      = (if [((handleEvent cfg hashFn now st ev).1)].any isDispatched
          then "ok" else "ignored",
         [(handleEvent cfg hashFn now st ev).1],
         (handleEvent cfg hashFn now st ev).2) := by
    unfold webhookRun runEvents
    cases handleEvent cfg hashFn now st ev
    rfl
  rcases hout st with h | h | h <;>
    (rw [hrun, h]; exact ⟨rfl, rfl⟩)

/-- Witness for C7: the concrete single text event without a reply token on
the empty state. -/
theorem webhook_no_reply_token_instance :
    (webhookRun ⟨some "tok", some "sec", some "U0", some "key"⟩ (fun _ => 0) 0
        ⟨[], []⟩ [⟨"message", some ⟨"text", some "m1", some "hi"⟩, none, some ⟨some "U1"⟩,
          some "evt1"⟩]).1 = "ignored"
    ∧ ((webhookRun ⟨some "tok", some "sec", some "U0", some "key"⟩ (fun _ => 0) 0
        ⟨[], []⟩ [⟨"message", some ⟨"text", some "m1", some "hi"⟩, none, some ⟨some "U1"⟩,
          some "evt1"⟩]).2.1).any isDispatched = false :=
  webhook_no_reply_token ⟨some "tok", some "sec", some "U0", some "key"⟩ (fun _ => 0) 0
    ⟨[], []⟩ _ ⟨"text", some "m1", some "hi"⟩ rfl rfl rfl rfl

/-- C8 counterexample: with the Google API key unset, module import succeeds
(startup performs no configuration validation), and a fully valid text event
is silently skipped during webhook handling — the runner-creation error is
caught per-event (src/main.py:470-472) and the response is `"ignored"` — so a
missing configuration value is not a fatal startup condition and does surface
(swallowed) during webhook handling. -/
theorem config_missing_not_fatal_at_startup :
    startupInit ⟨some "tok", some "sec", some "U0", none⟩
      = Except.ok ⟨some "tok", some "sec", some "U0", none⟩
    ∧ getRunner ⟨some "tok", some "sec", some "U0", none⟩
      = Except.error "Missing GOOGLE_API_KEY for Google Generative AI"
    ∧ webhookRun ⟨some "tok", some "sec", some "U0", none⟩ (fun _ => 0) 0 ⟨[], []⟩
        [⟨"message", some ⟨"text", some "m1", some "hi"⟩, some "r1",
          some ⟨some "U1"⟩, some "evt1"⟩]
      = ("ignored", [EvOutcome.runnerError],
          ⟨[("evt1", 0)], [(some "U1", 0)]⟩) :=
  ⟨rfl, rfl, rfl⟩

/-- C8, amended. Missing required configuration is not checked at process
startup (import-time initialization always succeeds); instead, when an
otherwise-dispatchable event reaches the runner-creation step and the
configuration is incomplete, the raised error is caught inside the per-event
handler, the event is skipped without dispatch, and the webhook responds
`"ignored"` — a per-request degradation, never a startup failure
(src/main.py:38-41, 61-65, 392-405, 466-472). -/
theorem config_missing_surfaces_per_request (cfg : Config) (hashFn : String → Int)
    (now : Int) (st : WebState) (ev : Event) (m : InMsg) (tok e : String)
    (hmsg : ev.etype = "message") (hm : ev.message = some m)
    (htext : m.mtype = "text")
    (hrunner : getRunner cfg = Except.error e)
    (hfresh : (dedupSeenDb now st.dedup (dedupKeyOf (uidOf cfg ev) (m.text.getD "")
        m.msgId ev.webhookEventId hashFn)).1 = false)
    (hthr : (userThrottled now st.throttle (uidOf cfg ev)).1 = false)
    (htok : truthyOpt ev.replyToken = some tok) :
    startupInit cfg = Except.ok cfg
    ∧ (webhookRun cfg hashFn now st [ev]).1 = "ignored"
    ∧ (webhookRun cfg hashFn now st [ev]).2.1 = [EvOutcome.runnerError] := by
  have hout : (webhookRun cfg hashFn now st [ev]).1 = "ignored"
      ∧ (webhookRun cfg hashFn now st [ev]).2.1 = [EvOutcome.runnerError] := by
    unfold webhookRun runEvents handleEvent
    simp only [hmsg, hm, htext, bne_self_eq_false, Bool.false_eq_true, if_false]
    cases hd : dedupSeenDb now st.dedup (dedupKeyOf (uidOf cfg ev) (m.text.getD "")
        m.msgId ev.webhookEventId hashFn) with
    | mk dup dst =>
      rw [hd] at hfresh
      simp only at hfresh
      subst hfresh
      cases ht : userThrottled now st.throttle (uidOf cfg ev) with
      | mk thr tst =>
        rw [ht] at hthr
        simp only at hthr
        subst hthr
        simp [htok, hrunner, isDispatched, runEvents]
  exact ⟨rfl, hout.1, hout.2⟩

/-- Witness for C8's amended theorem: concrete configuration lacking the
Google API key, with a fully valid event. -/
theorem config_missing_surfaces_per_request_instance :
    getRunner ⟨some "tok", some "sec", some "U0", none⟩
      = Except.error "Missing GOOGLE_API_KEY for Google Generative AI"
    ∧ (startupInit ⟨some "tok", some "sec", some "U0", none⟩
        = Except.ok ⟨some "tok", some "sec", some "U0", none⟩
      ∧ (webhookRun ⟨some "tok", some "sec", some "U0", none⟩ (fun _ => 0) 0 ⟨[], []⟩
          [⟨"message", some ⟨"text", some "m1", some "hi"⟩, some "r1",
            some ⟨some "U1"⟩, some "evt1"⟩]).1 = "ignored"
      ∧ (webhookRun ⟨some "tok", some "sec", some "U0", none⟩ (fun _ => 0) 0 ⟨[], []⟩
          [⟨"message", some ⟨"text", some "m1", some "hi"⟩, some "r1",
            some ⟨some "U1"⟩, some "evt1"⟩]).2.1 = [EvOutcome.runnerError]) :=
  ⟨rfl, config_missing_surfaces_per_request ⟨some "tok", some "sec", some "U0", none⟩
    (fun _ => 0) 0 ⟨[], []⟩ _ ⟨"text", some "m1", some "hi"⟩ "r1"
    "Missing GOOGLE_API_KEY for Google Generative AI" rfl rfl rfl rfl rfl rfl rfl⟩

theorem dedupSeenDb_dup_of_recorded (stored : TsStore String) (k : String)
    (t1 t2 : Int) (hfresh : lookupTs (purgeDedupDb t1 stored) k = none)
    (h2a : 0 ≤ t2 - t1) (h2b : t2 - t1 ≤ 300) :
    (dedupSeenDb t2 (purgeDedupDb t1 stored ++ [(k, t1)]) k).1 = true := by
  have hpn : lookupTs (purgeDedupDb t2 (purgeDedupDb t1 stored)) k = none :=
    lookupTs_filter_none _ _ _ hfresh
  have hkeep : purgeDedupDb t2 [(k, t1)] = [(k, t1)] := by
    unfold purgeDedupDb DEDUP_TTL_SECONDS
    simp only [List.filter_cons, List.filter_nil]
    rw [if_pos (by simp only [Bool.not_eq_eq_eq_not, Bool.not_true,
      decide_eq_false_iff_not]; omega)]
  have hl : lookupTs (purgeDedupDb t2 (purgeDedupDb t1 stored ++ [(k, t1)])) k
      = some t1 := by
    rw [purgeDedupDb_append, hkeep, lookupTs_append_left_none _ _ _ hpn]
    exact lookupTs_singleton_self k t1
  rw [dedupSeenDb_dup t2 _ k t1 hl (by unfold DEDUP_TTL_SECONDS; omega)]

/-- C10. Dedup is recorded before the throttle and reply-token checks
(src/main.py:444-469): an event that passes the dedup check but is then
skipped without dispatch — because the user is throttled or the reply token is
absent — still has its key recorded, so a redelivery of the same event within
the 300-second TTL is reported as a duplicate and is never dispatched, even
though no pipeline ever ran for the original event. -/
theorem dedup_recorded_before_skip (cfg : Config) (hashFn : String → Int)
    (t1 t2 : Int) (st : WebState) (ev : Event) (m : InMsg)
    (hmsg : ev.etype = "message") (hm : ev.message = some m)
    (htext : m.mtype = "text")
    (hfresh : lookupTs (purgeDedupDb t1 st.dedup) (dedupKeyOf (uidOf cfg ev)
        (m.text.getD "") m.msgId ev.webhookEventId hashFn) = none)
    (hskip : ev.replyToken = none
      ∨ (userThrottled t1 st.throttle (uidOf cfg ev)).1 = true)
    (h2a : 0 ≤ t2 - t1) (h2b : t2 - t1 ≤ 300) :
    ((webhookRun cfg hashFn t1 st [ev]).2.1).any isDispatched = false
    ∧ (webhookRun cfg hashFn t2 (webhookRun cfg hashFn t1 st [ev]).2.2 [ev]).2.1
        = [EvOutcome.dup]
    ∧ (webhookRun cfg hashFn t2 (webhookRun cfg hashFn t1 st [ev]).2.2 [ev]).1
        = "ignored" := by
  have hd1 : dedupSeenDb t1 st.dedup (dedupKeyOf (uidOf cfg ev) (m.text.getD "")
      m.msgId ev.webhookEventId hashFn)
      = (false, purgeDedupDb t1 st.dedup ++ [(dedupKeyOf (uidOf cfg ev)
          (m.text.getD "") m.msgId ev.webhookEventId hashFn, t1)]) :=
    dedupSeenDb_fresh t1 st.dedup _ hfresh
  have hfirst : ∃ o tst, ([o].any isDispatched = false)
      ∧ webhookRun cfg hashFn t1 st [ev]
        = ("ignored", [o], ⟨purgeDedupDb t1 st.dedup ++ [(dedupKeyOf (uidOf cfg ev)
            (m.text.getD "") m.msgId ev.webhookEventId hashFn, t1)], tst⟩) := by
    unfold webhookRun runEvents handleEvent
    simp only [hmsg, hm, htext, bne_self_eq_false, Bool.false_eq_true, if_false, hd1]
    cases ht : userThrottled t1 st.throttle (uidOf cfg ev) with
    | mk thr tst =>
      cases thr
      · rcases hskip with hrt | hthr
        · refine ⟨EvOutcome.noToken, tst, rfl, ?_⟩
          simp [hrt, truthyOpt, runEvents, isDispatched]
        · rw [ht] at hthr
          simp at hthr
      · refine ⟨EvOutcome.throttled, tst, rfl, ?_⟩
        simp [runEvents, isDispatched]
  obtain ⟨o, tst, ho, hrun1⟩ := hfirst
  have hdup2 : (dedupSeenDb t2 (purgeDedupDb t1 st.dedup ++ [(dedupKeyOf (uidOf cfg ev)
      (m.text.getD "") m.msgId ev.webhookEventId hashFn, t1)])
      (dedupKeyOf (uidOf cfg ev) (m.text.getD "") m.msgId ev.webhookEventId hashFn)).1
      = true :=
    dedupSeenDb_dup_of_recorded st.dedup _ t1 t2 hfresh h2a h2b
  have hdupRun : ∀ W : WebState,
      (dedupSeenDb t2 W.dedup (dedupKeyOf (uidOf cfg ev) (m.text.getD "")
        m.msgId ev.webhookEventId hashFn)).1 = true →
      (webhookRun cfg hashFn t2 W [ev]).2.1 = [EvOutcome.dup]
      ∧ (webhookRun cfg hashFn t2 W [ev]).1 = "ignored" := by
    intro W hW
    unfold webhookRun runEvents handleEvent
    simp only [hmsg, hm, htext, bne_self_eq_false, Bool.false_eq_true, if_false]
    cases hd : dedupSeenDb t2 W.dedup (dedupKeyOf (uidOf cfg ev) (m.text.getD "")
        m.msgId ev.webhookEventId hashFn) with
    | mk dup dst =>
      rw [hd] at hW
      simp only at hW
      subst hW
      simp [isDispatched, runEvents]
  have hst1 : (webhookRun cfg hashFn t1 st [ev]).2.2
      = ⟨purgeDedupDb t1 st.dedup ++ [(dedupKeyOf (uidOf cfg ev)
          (m.text.getD "") m.msgId ev.webhookEventId hashFn, t1)], tst⟩ := by
    rw [hrun1]
  refine ⟨by rw [hrun1]; exact ho, ?_, ?_⟩
  · rw [hst1]
    exact (hdupRun _ hdup2).1
  · rw [hst1]
    exact (hdupRun _ hdup2).2

/-- Witness for C10: a concrete text event without a reply token, delivered at
time 0 and redelivered at time 200 within the TTL. -/
theorem dedup_recorded_before_skip_instance :
    ((webhookRun ⟨some "tok", some "sec", some "U0", some "key"⟩ (fun _ => 0) 0
        ⟨[], []⟩ [⟨"message", some ⟨"text", some "m1", some "hi"⟩, none,
          some ⟨some "U1"⟩, some "evt1"⟩]).2.1).any isDispatched = false
    ∧ (webhookRun ⟨some "tok", some "sec", some "U0", some "key"⟩ (fun _ => 0) 200
        (webhookRun ⟨some "tok", some "sec", some "U0", some "key"⟩ (fun _ => 0) 0
          ⟨[], []⟩ [⟨"message", some ⟨"text", some "m1", some "hi"⟩, none,
            some ⟨some "U1"⟩, some "evt1"⟩]).2.2
        [⟨"message", some ⟨"text", some "m1", some "hi"⟩, none,
          some ⟨some "U1"⟩, some "evt1"⟩]).2.1 = [EvOutcome.dup]
    ∧ (webhookRun ⟨some "tok", some "sec", some "U0", some "key"⟩ (fun _ => 0) 200
        (webhookRun ⟨some "tok", some "sec", some "U0", some "key"⟩ (fun _ => 0) 0
          ⟨[], []⟩ [⟨"message", some ⟨"text", some "m1", some "hi"⟩, none,
            some ⟨some "U1"⟩, some "evt1"⟩]).2.2
        [⟨"message", some ⟨"text", some "m1", some "hi"⟩, none,
          some ⟨some "U1"⟩, some "evt1"⟩]).1 = "ignored" :=
  dedup_recorded_before_skip ⟨some "tok", some "sec", some "U0", some "key"⟩
    (fun _ => 0) 0 200 ⟨[], []⟩ _ ⟨"text", some "m1", some "hi"⟩ rfl rfl rfl rfl
    (Or.inl rfl) (by decide) (by decide)

theorem mem_skipWs (cs : List Char) (c : Char) (h : c ∈ skipWs cs) : c ∈ cs := by
  induction cs with
  | nil => simp [skipWs] at h
  | cons a as ih =>
    simp only [skipWs] at h
    split at h
    · exact List.mem_cons_of_mem a (ih h)
    · exact h

theorem parseNum_num (cs : List Char) (j : Json) (r : List Char)
    (h : parseNum cs = some (j, r)) : ∃ m k, j = Json.num m k := by
  simp only [parseNum] at h
  split at h
  · exact absurd h (by simp)
  · split at h
    · exact absurd h (by simp)
    · split at h
      · exact absurd h (by simp)
      · split at h
        · exact absurd h (by simp)
        · split at h
          · simp only [Option.some.injEq, Prod.mk.injEq] at h
            exact ⟨_, _, h.1.symm⟩
          · simp only [Option.some.injEq, Prod.mk.injEq] at h
            exact ⟨_, _, h.1.symm⟩

theorem parseJ_arrRest_arr (fuel : Nat) : ∀ (acc : List Json) (cs : List Char)
    (j : Json) (r : List Char), parseJ fuel (.arrRest acc) cs = some (j, r) →
    ∃ items, j = Json.arr items := by
  induction fuel with
  | zero =>
    intro acc cs j r h
    exact absurd h (by simp [parseJ])
  | succ fuel ih =>
    intro acc cs j r h
    unfold parseJ at h
    split at h
    · exact absurd h (by simp)
    · split at h
      · exact ih _ _ _ _ h
      · simp only [Option.some.injEq, Prod.mk.injEq] at h
        exact ⟨_, h.1.symm⟩
      · exact absurd h (by simp)

theorem parseJ_value_obj_mem (fuel : Nat) (cs : List Char) (f : Fields)
    (r : List Char) (h : parseJ fuel .value cs = some (Json.obj f, r)) :
    '\x7b' ∈ cs := by
  cases fuel with
  | zero => exact absurd h (by simp [parseJ])
  | succ fuel =>
    unfold parseJ at h
    cases hsk : skipWs cs with
    | nil =>
      rw [hsk] at h
      exact absurd h (by simp)
    | cons c cs1 =>
      simp only [hsk] at h
      have hc : c = '\x7b' := by
        by_contra hne
        split_ifs at h with h1 h2 h3 h4 h5 h6
        · split at h <;> simp_all
        · split at h <;> simp_all
        · split at h <;> simp_all
        · cases hps : parseStrChars (cs1.length + 1) cs1 <;> simp [hps] at h
        · split at h
          · simp at h
          · obtain ⟨items, hitem⟩ := parseJ_arrRest_arr fuel [] _ _ _ h
            exact absurd hitem (by simp)
        · exact hne (by simpa using h6)
        · obtain ⟨m, k, hmk⟩ := parseNum_num _ _ _ h
          exact absurd hmk (by simp)
      have hmem : '\x7b' ∈ skipWs cs := by
        rw [hsk, hc]
        exact List.mem_cons_self _ _
      exact mem_skipWs cs _ hmem

theorem jsonLoads_obj_mem (s : String) (f : Fields)
    (h : jsonLoads s = some (Json.obj f)) : '\x7b' ∈ s.data := by
  unfold jsonLoads at h
  split at h
  next j rest heq =>
    split at h
    · obtain rfl := Option.some.inj h
      exact parseJ_value_obj_mem _ _ _ _ heq
    · exact absurd h (by simp)
  next heq => exact absurd h (by simp)

theorem mem_stripChars (cs : List Char) (c : Char) (h : c ∈ stripChars cs) :
    c ∈ cs := by
  unfold stripChars at h
  rw [List.mem_reverse] at h
  have h1 := (List.dropWhile_sublist _).subset h
  rw [List.mem_reverse] at h1
  exact (List.dropWhile_sublist _).subset h1

theorem fenceTail_mem (g out : List Char) (h : fenceTail g = some out) :
    ∀ c ∈ out, c ∈ g := by
  intro c hc
  unfold fenceTail at h
  obtain ⟨e, he, hfe⟩ := List.exists_of_findSome?_eq_some h
  split at hfe
  next tl heq =>
    split at hfe
    · obtain rfl := Option.some.inj hfe
      exact List.mem_of_mem_take hc
    · exact absurd hfe (by simp)
  next => exact absurd hfe (by simp)

theorem fenceAfterTicks_mem (r out : List Char) (h : fenceAfterTicks r = some out) :
    ∀ c ∈ out, c ∈ r := by
  intro c hc
  unfold fenceAfterTicks at h
  obtain ⟨r1, hr1, hinner⟩ := List.exists_of_findSome?_eq_some h
  have hr1sub : ∀ x ∈ r1, x ∈ r := by
    intro x hx
    by_cases hj : startsWithChars "json".data r = true
    · rw [if_pos hj] at hr1
      simp only [List.mem_cons, List.mem_singleton, List.not_mem_nil, or_false] at hr1
      rcases hr1 with h4 | h0
      · subst h4
        exact List.mem_of_mem_drop hx
      · subst h0
        exact hx
    · rw [if_neg hj] at hr1
      simp only [List.mem_singleton, List.mem_cons, List.not_mem_nil, or_false] at hr1
      subst hr1
      exact hx
  obtain ⟨k, hk, hmatch⟩ := List.exists_of_findSome?_eq_some hinner
  split at hmatch
  next gg heq =>
    have hgg := fenceTail_mem _ _ hmatch c hc
    have : c ∈ r1.drop k := by
      rw [heq]
      exact List.mem_cons_of_mem _ hgg
    exact hr1sub c (List.mem_of_mem_drop this)
  next => exact absurd hmatch (by simp)

theorem fenceSearch_mem (cs g : List Char) (h : fenceSearch cs = some g) :
    ∀ c ∈ g, c ∈ cs := by
  intro c hc
  unfold fenceSearch at h
  obtain ⟨i, hi, hfi⟩ := List.exists_of_findSome?_eq_some h
  split at hfi
  · have hmem := fenceAfterTicks_mem _ _ hfi c hc
    exact List.mem_of_mem_drop (List.mem_of_mem_drop hmem)
  · exact absurd hfi (by simp)

theorem firstBraceIdx_none (cs : List Char) (h : '\x7b' ∉ cs) :
    firstBraceIdx cs = none := by
  induction cs with
  | nil => rfl
  | cons c rest ih =>
    rw [List.mem_cons, not_or] at h
    obtain ⟨h1, h2⟩ := h
    have hcond : ¬ ((c == '\x7b') = true) := by
      intro hb
      have hcb : c = '\x7b' := by simpa using hb
      exact h1 hcb.symm
    unfold firstBraceIdx
    rw [if_neg hcond, ih h2]
    rfl

theorem unwrapMsgObj_obj (j : Json) (m : Fields) (h : unwrapMsgObj j = some m) :
    ∃ fields, j = Json.obj fields := by
  cases j <;> first
    | exact ⟨_, rfl⟩
    | exact absurd h (by simp [unwrapMsgObj])

theorem unwrapMsgObj_spec (j : Json) (m : Fields) (h : unwrapMsgObj j = some m) :
    ∃ fields, j = Json.obj fields
      ∧ (lookupField fields "message" = some (Json.obj m)
        ∨ (hasField fields "type" = true ∧ m = fields)) := by
  obtain ⟨fields, rfl⟩ := unwrapMsgObj_obj j m h
  refine ⟨fields, rfl, ?_⟩
  simp only [unwrapMsgObj] at h
  split at h
  next inner heq =>
    obtain rfl := Option.some.inj h
    exact Or.inl heq
  next =>
    split at h
    next hty =>
      obtain rfl := Option.some.inj h
      exact Or.inr ⟨hty, rfl⟩
    next => exact absurd h (by simp)

theorem unwrap_loads_case (s : String) (j : Json) (m : Fields)
    (hj : jsonLoads s = some j) (hun : unwrapMsgObj j = some m) :
    hasField m "type" = true
    ∨ ∃ fields, jsonLoads s = some (Json.obj fields)
        ∧ lookupField fields "message" = some (Json.obj m) := by
  obtain ⟨fields, rfl, hcase⟩ := unwrapMsgObj_spec j m hun
  rcases hcase with hmsg | ⟨htype, rfl⟩
  · exact Or.inr ⟨fields, hj, hmsg⟩
  · exact Or.inl htype

/-- C3. Response-parser round trip (src/main.py:704-764
`_try_parse_message_obj`): a response that is exactly a ```json fenced block
containing the text message object parses to that object; a response wrapping
the flex object in prose with no fence parses via the scan from the first
brace to the end of the string; and every response containing no brace at all
parses to nothing. -/
theorem response_parser_round_trip :
    tryParseMessageObj "```json\n\x7b\"type\":\"text\",\"text\":\"hi\"\x7d\n```"
      = some [("type", Json.str "text"), ("text", Json.str "hi")]
    ∧ tryParseMessageObj
        "Sure! \x7b\"type\":\"flex\",\"altText\":\"a\",\"contents\":\x7b\x7d\x7d"
      = some [("type", Json.str "flex"), ("altText", Json.str "a"),
          ("contents", Json.obj [])]
    ∧ (∀ text : String, '\x7b' ∉ text.data → tryParseMessageObj text = none) := by
  refine ⟨rfl, rfl, ?_⟩
  intro text hnb
  have hfence : fenceParseResult text = none := by
    unfold fenceParseResult
    cases hf : fenceSearch text.data with
    | none => rfl
    | some g =>
      show (match jsonLoads (String.mk (stripChars g)) with
        | some j => unwrapMsgObj j
        | none => none) = none
      cases hl : jsonLoads (String.mk (stripChars g)) with
      | none => rfl
      | some j =>
        show unwrapMsgObj j = none
        cases hj : unwrapMsgObj j with
        | none => rfl
        | some m =>
          obtain ⟨fields, rfl⟩ := unwrapMsgObj_obj j m hj
          have hmem : '\x7b' ∈ (String.mk (stripChars g)).data :=
            jsonLoads_obj_mem _ _ hl
          have hintext : '\x7b' ∈ text.data :=
            fenceSearch_mem _ _ hf _ (mem_stripChars _ _ hmem)
          exact absurd hintext hnb
  have hbrace : braceParseResult text = none := by
    unfold braceParseResult
    rw [firstBraceIdx_none text.data hnb]
  unfold tryParseMessageObj
  rw [hfence, hbrace]

/-- Witness for C3's universal part at a concrete brace-free response. -/
theorem response_parser_round_trip_instance :
    ('\x7b' ∉ ("no json here" : String).data)
    ∧ tryParseMessageObj "no json here" = none :=
  ⟨by decide, response_parser_round_trip.2.2 "no json here" (by decide)⟩

/-- C4 counterexample: the parser returns a dict with no `type` field — the
nested-`message` unwrap (src/main.py:751-754) returns the inner dict without
checking for a `type` discriminator, so `\x7b"message":\x7b\x7d\x7d` parses to
the empty dict. -/
theorem parser_returns_typeless_dict :
    tryParseMessageObj "\x7b\"message\":\x7b\x7d\x7d" = some []
    ∧ hasField ([] : Fields) "type" = false :=
  ⟨rfl, rfl⟩

/-- C4, amended. For every input text, an object the response parser returns
either carries a `type` discriminator (the direct-format branch checks it), or
is the dict found under a `message` key of the JSON object parsed from that
text — from the stripped contents of its fenced block (src/main.py:721-736) or
from its first-brace suffix (src/main.py:741-758); the nested-format branch
performs no `type` check on the inner dict. -/
theorem parser_result_type_or_nested (text : String) (m : Fields)
    (h : tryParseMessageObj text = some m) :
    hasField m "type" = true
    ∨ (∃ g fields, fenceSearch text.data = some g
        ∧ jsonLoads (String.mk (stripChars g)) = some (Json.obj fields)
        ∧ lookupField fields "message" = some (Json.obj m))
    ∨ (∃ i fields, firstBraceIdx text.data = some i
        ∧ jsonLoads (String.mk (text.data.drop i)) = some (Json.obj fields)
        ∧ lookupField fields "message" = some (Json.obj m)) := by
  unfold tryParseMessageObj at h
  split at h
  next mf hf =>
    obtain rfl := Option.some.inj h
    unfold fenceParseResult at hf
    split at hf
    next g hg =>
      split at hf
      next j hj =>
        rcases unwrap_loads_case _ _ _ hj hf with htype | ⟨fields, hloads, hmsg⟩
        · exact Or.inl htype
        · exact Or.inr (Or.inl ⟨g, fields, hg, hloads, hmsg⟩)
      next => exact absurd hf (by simp)
    next => exact absurd hf (by simp)
  next hf =>
    unfold braceParseResult at h
    split at h
    next i hi =>
      split at h
      next j hj =>
        rcases unwrap_loads_case _ _ _ hj h with htype | ⟨fields, hloads, hmsg⟩
        · exact Or.inl htype
        · exact Or.inr (Or.inr ⟨i, fields, hi, hloads, hmsg⟩)
      next => exact absurd h (by simp)
    next => exact absurd h (by simp)

/-- Witness for C4's amended theorem at a concrete direct-format response. -/
theorem parser_result_type_or_nested_instance :
    tryParseMessageObj "\x7b\"type\":\"text\",\"text\":\"hi\"\x7d"
      = some [("type", Json.str "text"), ("text", Json.str "hi")]
    ∧ (hasField [("type", Json.str "text"), ("text", Json.str "hi")] "type" = true
      ∨ (∃ g fields,
          fenceSearch ("\x7b\"type\":\"text\",\"text\":\"hi\"\x7d" : String).data = some g
          ∧ jsonLoads (String.mk (stripChars g)) = some (Json.obj fields)
          ∧ lookupField fields "message"
            = some (Json.obj [("type", Json.str "text"), ("text", Json.str "hi")]))
      ∨ (∃ i fields,
          firstBraceIdx ("\x7b\"type\":\"text\",\"text\":\"hi\"\x7d" : String).data = some i
          ∧ jsonLoads (String.mk
              (("\x7b\"type\":\"text\",\"text\":\"hi\"\x7d" : String).data.drop i))
            = some (Json.obj fields)
          ∧ lookupField fields "message"
            = some (Json.obj [("type", Json.str "text"), ("text", Json.str "hi")]))) :=
  ⟨rfl, parser_result_type_or_nested "\x7b\"type\":\"text\",\"text\":\"hi\"\x7d"
    [("type", Json.str "text"), ("text", Json.str "hi")] rfl⟩

end LineBot
